import Mathlib

/-!
Verification of the ovfs request pipeline: a shallow embedding of the
descriptor-chain consumer (src/util.rs), the FUSE reply encoding
(src/filesystem_message.rs) and the filesystem state machine plus request
handlers (src/filesystem.rs), with theorems settling the specification
claims about them.

Guest-memory volatile slices are modelled as lists of bytes (List Nat);
the sharded slab is modelled as a list indexed by slot key, which is
faithful because the code never removes a slab entry, so sharded_slab
assigns the keys 0, 1, 2, ... in insertion order.  The opendal backend is
external to the repository; each handler takes the outcome of its backend
calls as parameters (a Bool for calls that can only succeed or fail, an
Option for calls returning data).  The errno attached to a failing
backend call is chosen arbitrarily (5) because every caller in
filesystem.rs discards it and replies a fixed errno of its own.
-/

/-! ## Descriptor-chain consumer (src/util.rs, DescriptorChainConsumer) -/

/-- Total length of a queue of slices, in bytes. -/
def totalLen (bufs : List (List Nat)) : Nat :=
  (bufs.map List.length).sum

/-- The state of DescriptorChainConsumer: an ordered queue of volatile
slices and the monotonic bytes_consumed counter. -/
structure DCConsumer where
  buffers : List (List Nat)
  bytes_consumed : Nat
deriving DecidableEq

/-- The slice-selection loop at the top of consume: walk the queue,
pushing slices while the accumulated length is below count.  The
accumulator len grows by min (count - len) vs.length per slice, mirroring
the source branch on remain < vs.len(). -/
def selectBufsAux (count : Nat) : List (List Nat) → Nat → List (List Nat)
  | [], _ => []
  | vs :: rest, len =>
    if count ≤ len then []
    else vs :: selectBufsAux count rest (len + min (count - len) vs.length)

/-- The slice prefix handed to the closure f by consume. -/
def selectBufs (bufs : List (List Nat)) (count : Nat) : List (List Nat) :=
  selectBufsAux count bufs 0

/-- The pop loop at the bottom of consume: pop whole slices while the
count of consumed bytes covers them; a slice straddling the boundary is
replaced by its suffix offset(k). -/
def popConsumed (k : Nat) : List (List Nat) → List (List Nat)
  | [] => []
  | vs :: rest => if k < vs.length then vs.drop k :: rest else popConsumed (k - vs.length) rest

/-- DescriptorChainConsumer::consume.  The closure f is modelled as a
total function from the selected slices to the number of bytes it
reports consumed (the error path of f and the usize overflow check on
bytes_consumed cannot fire in this model: Nat does not overflow and the
closures used by Reader and Writer are total).  When the selection is
empty the source returns Ok(0) without calling f and without touching
the state. -/
def consume (c : DCConsumer) (count : Nat) (f : List (List Nat) → Nat) : Nat × DCConsumer :=
  let bufs := selectBufs c.buffers count
  if bufs.isEmpty then (0, c)
  else
    let k := f bufs
    (k, ⟨popConsumed k c.buffers, c.bytes_consumed + k⟩)

/-- A sequence of consume calls; returns the list of returned byte counts
and the final consumer state. -/
def runConsume (c : DCConsumer) : List (Nat × (List (List Nat) → Nat)) → List Nat × DCConsumer
  | [] => ([], c)
  | (count, f) :: rest =>
    let r := consume c count f
    let rr := runConsume r.2 rest
    (r.1 :: rr.1, rr.2)

/-- DescriptorChainConsumer::split_at on the slice queue: walk the queue
subtracting whole slice lengths from remain; at the first slice with
remain < vs.len() split (sub-splitting the slice when remain > 0); if the
queue is exhausted, succeed with an empty suffix when remain = 0 and fail
otherwise. -/
def splitBufs (remain : Nat) : List (List Nat) → Option (List (List Nat) × List (List Nat))
  | [] => if remain = 0 then some ([], []) else none
  | vs :: rest =>
    if remain < vs.length then
      if 0 < remain then some ([vs.take remain], vs.drop remain :: rest)
      else some ([], vs :: rest)
    else
      match splitBufs (remain - vs.length) rest with
      | some pr => some (vs :: pr.1, pr.2)
      | none => none

/-- DescriptorChainConsumer::split_at: the original consumer keeps the
first offset bytes, the returned consumer holds the suffix with a fresh
bytes_consumed of 0. -/
def splitAtC (c : DCConsumer) (offset : Nat) : Option (DCConsumer × DCConsumer) :=
  match splitBufs offset c.buffers with
  | some pr => some (⟨pr.1, c.bytes_consumed⟩, ⟨pr.2, 0⟩)
  | none => none

/-! ### Lemmas about the consumer -/

theorem totalLen_nil : totalLen [] = 0 := rfl

theorem totalLen_cons (vs : List Nat) (rest : List (List Nat)) :
    totalLen (vs :: rest) = vs.length + totalLen rest := by
  simp [totalLen]

theorem totalLen_selectBufsAux_le (count : Nat) :
    ∀ (bufs : List (List Nat)) (len : Nat),
      totalLen (selectBufsAux count bufs len) ≤ totalLen bufs := by
  intro bufs
  induction bufs with
  | nil => intro len; simp [selectBufsAux]
  | cons vs rest ih =>
    intro len
    by_cases h : count ≤ len
    · simp only [selectBufsAux, if_pos h, totalLen_nil]
      exact Nat.zero_le _
    · simp only [selectBufsAux, if_neg h, totalLen_cons]
      exact Nat.add_le_add_left (ih _) _

theorem totalLen_popConsumed :
    ∀ (bufs : List (List Nat)) (k : Nat), k ≤ totalLen bufs →
      totalLen (popConsumed k bufs) + k = totalLen bufs := by
  intro bufs
  induction bufs with
  | nil =>
    intro k hk
    simp [totalLen_nil] at hk
    simp [popConsumed, hk, totalLen_nil]
  | cons vs rest ih =>
    intro k hk
    rw [totalLen_cons] at hk
    by_cases h : k < vs.length
    · simp only [popConsumed, if_pos h, totalLen_cons, List.length_drop]
      omega
    · simp only [popConsumed, if_neg h]
      rw [totalLen_cons]
      have := ih (k - vs.length) (by omega)
      omega

theorem consume_bytes_eq (c : DCConsumer) (count : Nat) (f : List (List Nat) → Nat) :
    (consume c count f).2.bytes_consumed = c.bytes_consumed + (consume c count f).1 := by
  unfold consume
  by_cases h : (selectBufs c.buffers count).isEmpty
  · simp [h]
  · simp [h]

theorem consume_k_le (c : DCConsumer) (count : Nat) (f : List (List Nat) → Nat)
    (hf : ∀ bufs, f bufs ≤ totalLen bufs) :
    (consume c count f).1 ≤ totalLen c.buffers := by
  unfold consume
  by_cases h : (selectBufs c.buffers count).isEmpty
  · simp [h]
  · simp only [h, Bool.false_eq_true, if_false]
    exact le_trans (hf _) (totalLen_selectBufsAux_le count c.buffers 0)

theorem consume_totalLen (c : DCConsumer) (count : Nat) (f : List (List Nat) → Nat)
    (hf : ∀ bufs, f bufs ≤ totalLen bufs) :
    totalLen (consume c count f).2.buffers + (consume c count f).1 = totalLen c.buffers := by
  have hk := consume_k_le c count f hf
  unfold consume at hk ⊢
  by_cases h : (selectBufs c.buffers count).isEmpty
  · simp [h]
  · simp only [h, Bool.false_eq_true, if_false] at hk ⊢
    exact totalLen_popConsumed c.buffers _ hk

/-- Claim C7: for every DescriptorChainConsumer and every sequence of
consume calls returning k1, ..., kn without error, the final
bytes_consumed counter equals the initial counter plus k1 + ... + kn, and
the total remaining length of the queued slices equals the original total
minus that sum (stated additively: remaining + sum = original).  The
hypothesis says each closure reports at most the total length of the
slices it is given, which holds for every closure the source passes to
consume (Reader::read, Writer::write, and both BufferWrapper copies). -/
theorem consume_accounting (c : DCConsumer)
    (calls : List (Nat × (List (List Nat) → Nat)))
    (hf : ∀ p ∈ calls, ∀ bufs, p.2 bufs ≤ totalLen bufs) :
    (runConsume c calls).2.bytes_consumed = c.bytes_consumed + (runConsume c calls).1.sum
    ∧ totalLen (runConsume c calls).2.buffers + (runConsume c calls).1.sum
        = totalLen c.buffers := by
  induction calls generalizing c with
  | nil => simp [runConsume]
  | cons p rest ih =>
    obtain ⟨count, f⟩ := p
    have hf0 : ∀ bufs, f bufs ≤ totalLen bufs := hf (count, f) (List.mem_cons_self _ _)
    have hfr : ∀ q ∈ rest, ∀ bufs, q.2 bufs ≤ totalLen bufs :=
      fun q hq => hf q (List.mem_cons_of_mem _ hq)
    have h1 := consume_bytes_eq c count f
    have h2 := consume_totalLen c count f hf0
    have ihr := ih (consume c count f).2 hfr
    simp only [runConsume, List.sum_cons]
    constructor
    · omega
    · omega

theorem splitBufs_none_iff :
    ∀ (bufs : List (List Nat)) (n : Nat), splitBufs n bufs = none ↔ totalLen bufs < n := by
  intro bufs
  induction bufs with
  | nil =>
    intro n
    by_cases h : n = 0
    · simp [splitBufs, h, totalLen_nil]
    · simp [splitBufs, h, totalLen_nil]
      omega
  | cons vs rest ih =>
    intro n
    by_cases h : n < vs.length
    · by_cases h0 : 0 < n
      · simp [splitBufs, h, h0, totalLen_cons]
        omega
      · simp [splitBufs, h, h0, totalLen_cons]
        omega
    · simp only [splitBufs, if_neg h]
      rcases hrec : splitBufs (n - vs.length) rest with _ | pr
      · have := (ih (n - vs.length)).mp hrec
        simp only [totalLen_cons]
        constructor
        · intro _; omega
        · intro _; trivial
      · have hne : ¬ totalLen rest < n - vs.length := by
          intro hc
          rw [← ih (n - vs.length)] at hc
          rw [hrec] at hc
          exact Option.noConfusion hc
        simp only [totalLen_cons]
        constructor
        · intro hc; exact Option.noConfusion hc
        · intro hc; omega

theorem splitBufs_some :
    ∀ (bufs : List (List Nat)) (n : Nat) (l r : List (List Nat)),
      splitBufs n bufs = some (l, r) →
      l.flatten = bufs.flatten.take n ∧ r.flatten = bufs.flatten.drop n
      ∧ totalLen l = n := by
  intro bufs
  induction bufs with
  | nil =>
    intro n l r h
    by_cases hn : n = 0
    · subst hn
      simp [splitBufs] at h
      obtain ⟨rfl, rfl⟩ := h
      simp [totalLen_nil]
    · simp [splitBufs, hn] at h
  | cons vs rest ih =>
    intro n l r h
    by_cases hlt : n < vs.length
    · by_cases h0 : 0 < n
      · simp only [splitBufs, if_pos hlt, if_pos h0, Option.some.injEq, Prod.mk.injEq] at h
        obtain ⟨rfl, rfl⟩ := h
        refine ⟨?_, ?_, ?_⟩
        · simp only [List.flatten_cons, List.flatten_nil, List.append_nil, List.flatten]
          rw [List.take_append_of_le_length (Nat.le_of_lt hlt)]
        · simp only [List.flatten_cons, List.flatten]
          rw [List.drop_append_eq_append_drop]
          have : n - vs.length = 0 := by omega
          rw [this, List.drop_zero]
        · simp only [totalLen_cons, totalLen_nil, List.length_take]
          omega
      · have hn : n = 0 := by omega
        subst hn
        simp only [splitBufs, if_pos hlt, if_neg h0, Option.some.injEq, Prod.mk.injEq] at h
        obtain ⟨rfl, rfl⟩ := h
        simp [totalLen_nil]
    · simp only [splitBufs, if_neg hlt] at h
      rcases hrec : splitBufs (n - vs.length) rest with _ | pr
      · rw [hrec] at h; exact Option.noConfusion h
      · rw [hrec] at h
        simp only [Option.some.injEq, Prod.mk.injEq] at h
        obtain ⟨rfl, rfl⟩ := h
        obtain ⟨h1, h2, h3⟩ := ih (n - vs.length) pr.1 pr.2 hrec
        have hge : vs.length ≤ n := Nat.le_of_not_lt hlt
        refine ⟨?_, ?_, ?_⟩
        · simp only [List.flatten_cons]
          rw [h1, List.take_append_eq_append_take]
          congr 1
          rw [List.take_of_length_le hge]
        · simp only [List.flatten_cons]
          rw [h2, List.drop_append_eq_append_drop]
          have : vs.drop n = [] := List.drop_eq_nil_of_le hge
          rw [this, List.nil_append]
        · rw [totalLen_cons, h3]
          omega

theorem totalLen_eq_length_flatten (bufs : List (List Nat)) :
    totalLen bufs = bufs.flatten.length := by
  simp [totalLen, List.length_flatten]

/-- Claim C8: split_at(n) fails exactly when n exceeds the total
remaining length; on success the original consumer keeps exactly the
first n bytes of the queue, the returned consumer holds the remaining
L - n bytes with a fresh bytes_consumed of 0, and the byte-wise
concatenation of the two queues equals the original queue. -/
theorem split_at_spec (c : DCConsumer) (n : Nat) :
    (splitAtC c n = none ↔ totalLen c.buffers < n)
    ∧ (∀ c1 c2, splitAtC c n = some (c1, c2) →
        c1.buffers.flatten = c.buffers.flatten.take n
        ∧ c2.buffers.flatten = c.buffers.flatten.drop n
        ∧ totalLen c1.buffers = n
        ∧ totalLen c2.buffers + n = totalLen c.buffers
        ∧ c1.buffers.flatten ++ c2.buffers.flatten = c.buffers.flatten
        ∧ c1.bytes_consumed = c.bytes_consumed ∧ c2.bytes_consumed = 0) := by
  constructor
  · unfold splitAtC
    rcases hrec : splitBufs n c.buffers with _ | pr
    · simp only []
      rw [← splitBufs_none_iff c.buffers n, hrec]
      simp
    · simp only []
      rw [← splitBufs_none_iff c.buffers n, hrec]
      constructor
      · intro hc; exact Option.noConfusion hc
      · intro hc; exact Option.noConfusion hc
  · intro c1 c2 h
    unfold splitAtC at h
    rcases hrec : splitBufs n c.buffers with _ | pr
    · rw [hrec] at h; exact Option.noConfusion h
    · rw [hrec] at h
      simp only [Option.some.injEq, Prod.mk.injEq] at h
      obtain ⟨rfl, rfl⟩ := h
      obtain ⟨h1, h2, h3⟩ := splitBufs_some c.buffers n pr.1 pr.2 hrec
      have hn_le : n ≤ totalLen c.buffers := by
        have := (splitBufs_none_iff c.buffers n).mpr
        by_contra hc
        have hlt : totalLen c.buffers < n := by omega
        rw [this hlt] at hrec
        exact Option.noConfusion hrec
      refine ⟨h1, h2, h3, ?_, ?_, rfl, rfl⟩
      · rw [totalLen_eq_length_flatten, h2, List.length_drop,
          ← totalLen_eq_length_flatten]
        omega
      · rw [h1, h2, List.take_append_drop]

/-- Witness for C7 at a concrete consumer and call sequence. -/
theorem consume_accounting_witness :
    (runConsume ⟨[[1, 2], [3]], 0⟩ [(1, totalLen)]).2.bytes_consumed
        = (0 : Nat) + (runConsume ⟨[[1, 2], [3]], 0⟩ [(1, totalLen)]).1.sum
    ∧ totalLen (runConsume ⟨[[1, 2], [3]], 0⟩ [(1, totalLen)]).2.buffers
        + (runConsume ⟨[[1, 2], [3]], 0⟩ [(1, totalLen)]).1.sum
        = totalLen [[1, 2], [3]] :=
  consume_accounting ⟨[[1, 2], [3]], 0⟩ [(1, totalLen)]
    (by
      intro p hp bufs
      simp only [List.mem_singleton] at hp
      subst hp
      exact le_refl _)

/-- Witness for C8 at a concrete consumer, splitting inside a slice. -/
theorem split_at_spec_witness :
    splitAtC ⟨[[1, 2, 3], [4, 5]], 7⟩ 4 = some (⟨[[1, 2, 3], [4]], 7⟩, ⟨[[5]], 0⟩)
    ∧ (([[1, 2, 3], [4]] : List (List Nat)).flatten
          = ([[1, 2, 3], [4, 5]] : List (List Nat)).flatten.take 4
        ∧ ([[5]] : List (List Nat)).flatten
          = ([[1, 2, 3], [4, 5]] : List (List Nat)).flatten.drop 4
        ∧ totalLen [[1, 2, 3], [4]] = 4
        ∧ totalLen [[5]] + 4 = totalLen [[1, 2, 3], [4, 5]]
        ∧ ([[1, 2, 3], [4]] : List (List Nat)).flatten ++ ([[5]] : List (List Nat)).flatten
          = ([[1, 2, 3], [4, 5]] : List (List Nat)).flatten
        ∧ (7 : Nat) = 7 ∧ (0 : Nat) = 0) :=
  ⟨by decide, (split_at_spec ⟨[[1, 2, 3], [4, 5]], 7⟩ 4).2 ⟨[[1, 2, 3], [4]], 7⟩ ⟨[[5]], 0⟩
    (by decide)⟩

/-! ## Protocol constants and reply encoding (src/filesystem_message.rs) -/

/-- KERNEL_VERSION in filesystem.rs. -/
def KERNEL_VERSION : Nat := 7

/-- KERNEL_MINOR_VERSION in filesystem.rs. -/
def KERNEL_MINOR_VERSION : Nat := 38

/-- MIN_KERNEL_MINOR_VERSION in filesystem.rs. -/
def MIN_KERNEL_MINOR_VERSION : Nat := 27

/-- MAX_BUFFER_SIZE in filesystem.rs: 1 shifted left by 20. -/
def MAX_BUFFER_SIZE : Nat := 1048576

/-- BUFFER_HEADER_SIZE in filesystem.rs. -/
def BUFFER_HEADER_SIZE : Nat := 4096

/-- size_of InHeader: u32 len, u32 opcode, u64 unique, u64 nodeid,
u32 uid, u32 gid, u32 pid, u16 total_extlen, u16 padding = 40 bytes. -/
def sizeOfInHeader : Nat := 40

/-- size_of OutHeader: u32 len, i32 error, u64 unique = 16 bytes. -/
def sizeOfOutHeader : Nat := 16

/-- size_of InitOut: 4 u32, 2 u16, 2 u32, 2 u16, u32, 7 u32 = 64 bytes. -/
def sizeOfInitOut : Nat := 64

/-- size_of Attr: 6 u64 plus 10 u32 = 88 bytes. -/
def sizeOfAttr : Nat := 88

/-- size_of EntryOut: 4 u64, 2 u32, Attr = 128 bytes. -/
def sizeOfEntryOut : Nat := 128

/-- size_of AttrOut: u64, 2 u32, Attr = 104 bytes. -/
def sizeOfAttrOut : Nat := 104

/-- size_of OpenOut: u64 fh, u32 open_flags, u32 padding = 16 bytes. -/
def sizeOfOpenOut : Nat := 16

/-- size_of WriteOut: u32 size, u32 padding = 8 bytes. -/
def sizeOfWriteOut : Nat := 8

/-- size_of CreateIn: 4 u32 = 16 bytes. -/
def sizeOfCreateIn : Nat := 16

/-- size_of MkdirIn: 2 u32 = 8 bytes. -/
def sizeOfMkdirIn : Nat := 8

/-- size_of DirEntryOut: u64 ino, u64 off, u32 namelen, u32 type_ = 24 bytes. -/
def sizeOfDirEntryOut : Nat := 24

/-- The OutHeader record: len covers header plus body, error is 0 on
success and a negated errno on failure. -/
structure OutHeaderM where
  len : Nat
  error : Int
  unique : Nat
deriving DecidableEq

/-- One emitted DirEntryOut record (src/filesystem_message.rs). -/
structure DirEntryOutM where
  ino : Nat
  off : Nat
  namelen : Nat
  type_ : Nat
deriving DecidableEq

/-- The body of a reply, identifying which fixed record (and which of its
guest-relevant fields) follows the OutHeader. -/
inductive ReplyBody where
  | empty : ReplyBody
  | initOut (major minor max_write : Nat) : ReplyBody
  | entryOut (nodeid : Nat) : ReplyBody
  | entryOpenOut (nodeid : Nat) : ReplyBody
  | attrOut (ino : Nat) : ReplyBody
  | openOut : ReplyBody
  | writeOut (size : Nat) : ReplyBody
  | dirents (entries : List DirEntryOutM) : ReplyBody
deriving DecidableEq

/-- A full reply as the handlers emit it through the Writer. -/
structure Reply where
  header : OutHeaderM
  body : ReplyBody
deriving DecidableEq

/-- Filesystem::reply_error: a bare OutHeader of 16 bytes carrying the
negated errno. -/
def replyError (unique errno : Nat) : Reply :=
  ⟨⟨sizeOfOutHeader, -(errno : Int), unique⟩, ReplyBody.empty⟩

/-- What a handler run produces: a reply written to the guest, or a panic
(Rust arithmetic underflow or a failed unwrap).  Decode failures that
make the handler return Err to the event loop are not modelled: every
claim under study fixes the decoded input records as parameters. -/
inductive Outcome where
  | reply (r : Reply) : Outcome
  | panic : Outcome
deriving DecidableEq

/-- Rust usize subtraction a - b: returns none when it underflows, which
panics in debug builds (and in release wraps around, making the
follow-up vec![0; name_len] allocation abort). -/
def usizeSub (a b : Nat) : Option Nat :=
  if b ≤ a then some (a - b) else none

/-! ## Filesystem state (src/filesystem.rs) -/

/-- An inode record (struct OpenedFile): the backend path and the cached
attributes.  Of the Attr fields only ino, the directory bit of mode, and
size are relevant to the claims; uid/gid/nlink are fixed defaults. -/
structure OpenedFile where
  path : String
  ino : Nat
  isDir : Bool
  size : Nat
deriving DecidableEq

/-- The root inode record built in Filesystem::init: OpenedFile::new(Dir,
root path) followed by attr.metadata.ino = DEFAULT_ROOT_DIR_INODE. -/
def rootFile : OpenedFile :=
  ⟨"/", 1, true, 0⟩

/-- Filesystem state: the inode slab (list index = slot key), the
path-to-inode map and the open-writer registry mapping a path to the
writer cursor written.  Maps are association lists where an insert
prepends (later inserts shadow earlier ones, as in HashMap::insert). -/
structure FsState where
  slab : List OpenedFile
  pathMap : List (String × Nat)
  writers : List (String × Nat)
deriving DecidableEq

/-- The freshly constructed Filesystem. -/
def emptyFs : FsState :=
  ⟨[], [], []⟩

/-- Slab::get by slot key. -/
def slabGet (slab : List OpenedFile) (k : Nat) : Option OpenedFile :=
  slab[k]?

/-- HashMap::get on the association list. -/
def assocGet : List (String × Nat) → String → Option Nat
  | [], _ => none
  | (q, v) :: rest, p => if q = p then some v else assocGet rest p

/-- HashMap::insert. -/
def assocInsert (m : List (String × Nat)) (p : String) (v : Nat) : List (String × Nat) :=
  (p, v) :: m

/-- HashMap::remove. -/
def assocRemove (m : List (String × Nat)) (p : String) : List (String × Nat) :=
  m.filter fun e => !(e.1 = p)

/-! ## Backend-facing helpers (src/filesystem.rs, async impl block) -/

/-- The backend capability bits Open consults (full_capability). -/
structure Capability where
  write : Bool
  write_can_append : Bool
deriving DecidableEq

/-- Outcome of a backend stat: entry mode reduced to the DIR test the
code performs, plus content_length. -/
structure StatRes where
  isDir : Bool
  content_length : Nat
deriving DecidableEq

/-- One entry of a backend list call. -/
structure BEntry where
  name : String
  isDir : Bool
  content_length : Nat
deriving DecidableEq

/-- struct DirEntry in filesystem.rs. -/
structure DirEntry where
  ino : Nat
  off : Nat
  type_ : Nat
  name : String
deriving DecidableEq

/-- libc O_WRONLY. -/
def O_WRONLY : Nat := 1

/-- libc O_RDWR. -/
def O_RDWR : Nat := 2

/-- libc O_ACCMODE. -/
def O_ACCMODE : Nat := 3

/-- libc O_CREAT (octal 100). -/
def O_CREAT : Nat := 64

/-- libc O_TRUNC (octal 1000). -/
def O_TRUNC : Nat := 512

/-- libc O_APPEND (octal 2000). -/
def O_APPEND : Nat := 1024

/-- Filesystem::check_flags: errno 13 is libc EACCES. -/
def check_flags (cap : Capability) (flags : Nat) : Except Nat (Bool × Bool) :=
  let is_trunc : Bool := flags &&& O_TRUNC != 0 || flags &&& O_CREAT != 0
  let is_append : Bool := flags &&& O_APPEND != 0
  let mode := flags &&& O_ACCMODE
  let is_write : Bool := mode == O_WRONLY || mode == O_RDWR || is_append
  if is_trunc && !cap.write then Except.error 13
  else if is_append && !cap.write_can_append then Except.error 13
  else Except.ok (is_write, is_append)

/-- The backend-dependent part of Filesystem::do_set_writer, separated
from the state update because it does not read the state: it returns
none when the flags are not write-mode (no writer is registered) and
some written when a writer starting at the cursor written is registered.
writerOk models whether core.writer_with succeeds and statLen the
content_length of the stat issued for O_APPEND (none = stat failed). -/
def do_set_writer_core (flags : Nat) (cap : Capability) (writerOk : Bool)
    (statLen : Option Nat) : Except Nat (Option Nat) :=
  match check_flags cap flags with
  | Except.error e => Except.error e
  | Except.ok (is_write, is_append) =>
    if !is_write then Except.ok none
    else if !writerOk then Except.error 5
    else if is_append then
      match statLen with
      | some n => Except.ok (some n)
      | none => Except.error 5
    else Except.ok (some 0)

/-- Filesystem::do_set_writer: on success with a write-mode open, insert
the InnerWriter into the open-writer registry. -/
def do_set_writer (s : FsState) (path : String) (flags : Nat) (cap : Capability)
    (writerOk : Bool) (statLen : Option Nat) : Except Nat FsState :=
  match do_set_writer_core flags cap writerOk statLen with
  | Except.error e => Except.error e
  | Except.ok none => Except.ok s
  | Except.ok (some written) =>
    Except.ok { s with writers := assocInsert s.writers path written }

/-- Filesystem::do_write: look up the writer for the path (errno 5 = EIO
if absent), require offset = written (errno 5 on mismatch, cursor
untouched), stream the data to the backend (writeOk models the backend
call), then advance the cursor by the length of the staged data. -/
def do_write (s : FsState) (path : String) (offset : Nat) (data : List Nat)
    (writeOk : Bool) : Except Nat (FsState × Nat) :=
  match assocGet s.writers path with
  | none => Except.error 5
  | some written =>
    if offset != written then Except.error 5
    else if !writeOk then Except.error 5
    else Except.ok
      ({ s with writers := assocInsert s.writers path (written + data.length) },
       data.length)

/-- Filesystem::do_get_metadata: stat the backend (statRes; none = stat
error), build an OpenedFile whose size is the stat content_length; when
the path is already mapped, reuse the existing ino without touching the
state; otherwise insert the record into the slab (the record is the
clone taken before ino is assigned, so its ino field is still 0) and map
the path to the new slot key. -/
def do_get_metadata (s : FsState) (path : String) (statRes : Option StatRes) :
    Except Nat (FsState × OpenedFile) :=
  match statRes with
  | none => Except.error 5
  | some st =>
    let base : OpenedFile := ⟨path, 0, st.isDir, st.content_length⟩
    match assocGet s.pathMap path with
    | some ino => Except.ok (s, { base with ino := ino })
    | none =>
      let key := s.slab.length
      Except.ok
        ({ s with slab := s.slab ++ [base], pathMap := assocInsert s.pathMap path key },
         { base with ino := key })

/-- Append the trailing slash that do_create_dir and do_readdir ensure
before calling the backend. -/
def ensureSlash (p : String) : String :=
  if p.data.getLast? = some '/' then p else p ++ "/"

/-- Strip one trailing slash from a backend entry name, as do_readdir
does before emitting it. -/
def stripSlash (name : String) : String :=
  if name.data.getLast? = some '/' then String.mk name.data.dropLast else name

/-- DEAFULT_DIR_TYPE_IN_DIR_ENTRY and DEAFULT_FILE_TYPE_IN_DIR_ENTRY. -/
def entryTypeOf (isDir : Bool) : Nat :=
  if isDir then 4 else 8

/-- The inode-allocation step of the do_readdir closure: reuse a mapped
ino, otherwise insert the entry record into the slab and the map. -/
def readdirAlloc (s : FsState) (epath : String) (isDir : Bool) (size : Nat) :
    FsState × Nat :=
  match assocGet s.pathMap epath with
  | some ino => (s, ino)
  | none =>
    let key := s.slab.length
    ({ s with
        slab := s.slab ++ [⟨epath, 0, isDir, size⟩],
        pathMap := assocInsert s.pathMap epath key },
     key)

/-- The enumerate-and-map loop of Filesystem::do_readdir over the backend
listing; i is the running enumerate index, lpath the listing path (with
its trailing slash already ensured).  Note the emitted entry path is
built with format of lpath, a slash and the entry name, so it contains a
double slash. -/
def do_readdirAux (s : FsState) (lpath : String) (i : Nat) :
    List BEntry → FsState × List DirEntry
  | [] => (s, [])
  | e :: rest =>
    let epath := lpath ++ "/" ++ e.name
    let pr := readdirAlloc s epath e.isDir e.content_length
    let d : DirEntry := ⟨pr.2, i + 1, entryTypeOf e.isDir, stripSlash e.name⟩
    let prr := do_readdirAux pr.1 lpath (i + 1) rest
    (prr.1, d :: prr.2)

/-- Filesystem::do_readdir given a successful backend listing. -/
def do_readdir (s : FsState) (path : String) (bentries : List BEntry) :
    FsState × List DirEntry :=
  do_readdirAux s (ensureSlash path) 0 bentries

/-! ## Request handlers (src/filesystem.rs, impl Filesystem) -/

/-- A success reply whose body is a single fixed record of bodyLen bytes
(reply_ok computes len as OutHeader plus record plus data sizes). -/
def replyOk (unique bodyLen : Nat) (b : ReplyBody) : Reply :=
  ⟨⟨sizeOfOutHeader + bodyLen, 0, unique⟩, b⟩

/-- Filesystem::init: reject major not 7 or minor below 27 with errno 5
(EIO); otherwise insert the root record into the slab twice (the first
insert burns slot 0 so that the root lands in slot 1), map the root path
to inode 1, and reply InitOut with major 7, minor 38, max_write 1 MiB. -/
def initH (s : FsState) (unique major minor : Nat) : Outcome × FsState :=
  if major != KERNEL_VERSION || minor < MIN_KERNEL_MINOR_VERSION then
    (Outcome.reply (replyError unique 5), s)
  else
    let s1 : FsState :=
      { s with
          slab := s.slab ++ [rootFile, rootFile],
          pathMap := assocInsert s.pathMap "/" 1 }
    (Outcome.reply
      (replyOk unique sizeOfInitOut
        (ReplyBody.initOut KERNEL_VERSION KERNEL_MINOR_VERSION MAX_BUFFER_SIZE)), s1)

/-- Filesystem::lookup.  The name-length computation subtracts
size_of InHeader from in_header.len in usize and panics on underflow;
the read_exact and bytes_to_str steps are abstracted by passing the
decoded name (their failure paths reply EIO and do not touch the state).
A stat failure replies errno 2 (ENOENT). -/
def lookupH (s : FsState) (unique hlen nodeid : Nat) (name : String)
    (statRes : Option StatRes) : Outcome × FsState :=
  match usizeSub hlen sizeOfInHeader with
  | none => (Outcome.panic, s)
  | some _ =>
    match slabGet s.slab nodeid with
    | none => (Outcome.reply (replyError unique 2), s)
    | some parent =>
      match do_get_metadata s (parent.path ++ "/" ++ name) statRes with
      | Except.error _ => (Outcome.reply (replyError unique 2), s)
      | Except.ok pr =>
        (Outcome.reply (replyOk unique sizeOfEntryOut (ReplyBody.entryOut pr.2.ino)),
         pr.1)

/-- Filesystem::getattr: resolve the inode path, stat the backend through
do_get_metadata, reply AttrOut. -/
def getattrH (s : FsState) (unique nodeid : Nat) (statRes : Option StatRes) :
    Outcome × FsState :=
  match slabGet s.slab nodeid with
  | none => (Outcome.reply (replyError unique 2), s)
  | some f =>
    match do_get_metadata s f.path statRes with
    | Except.error _ => (Outcome.reply (replyError unique 2), s)
    | Except.ok pr =>
      (Outcome.reply (replyOk unique sizeOfAttrOut (ReplyBody.attrOut pr.2.ino)), pr.1)

/-- Filesystem::create: decode CreateIn and the name (the name length is
in_header.len minus InHeader minus CreateIn, panicking on usize
underflow), allocate the file inode and its map entry BEFORE calling
do_set_writer, and on a do_set_writer error reply errno 2 without
rolling the allocation back. -/
def createH (s : FsState) (unique hlen nodeid : Nat) (name : String) (flags : Nat)
    (cap : Capability) (writerOk : Bool) (statLen : Option Nat) : Outcome × FsState :=
  match usizeSub hlen (sizeOfInHeader + sizeOfCreateIn) with
  | none => (Outcome.panic, s)
  | some _ =>
    match slabGet s.slab nodeid with
    | none => (Outcome.reply (replyError unique 2), s)
    | some parent =>
      match do_set_writer
          { s with
              slab := s.slab ++ [⟨parent.path ++ "/" ++ name, 0, false, 0⟩],
              pathMap := assocInsert s.pathMap (parent.path ++ "/" ++ name) s.slab.length }
          (parent.path ++ "/" ++ name) flags cap writerOk statLen with
      | Except.error _ =>
        (Outcome.reply (replyError unique 2),
         { s with
             slab := s.slab ++ [⟨parent.path ++ "/" ++ name, 0, false, 0⟩],
             pathMap := assocInsert s.pathMap (parent.path ++ "/" ++ name) s.slab.length })
      | Except.ok s2 =>
        (Outcome.reply
          (replyOk unique (sizeOfEntryOut + sizeOfOpenOut)
            (ReplyBody.entryOpenOut s.slab.length)),
         s2)

/-- Filesystem::mkdir: decode MkdirIn and the name (length is
in_header.len minus InHeader minus MkdirIn), allocate the directory
inode and map entry BEFORE the backend create_dir call (dirOk), and on a
backend error reply errno 2 keeping the allocation. -/
def mkdirH (s : FsState) (unique hlen nodeid : Nat) (name : String) (dirOk : Bool) :
    Outcome × FsState :=
  match usizeSub hlen (sizeOfInHeader + sizeOfMkdirIn) with
  | none => (Outcome.panic, s)
  | some _ =>
    match slabGet s.slab nodeid with
    | none => (Outcome.reply (replyError unique 2), s)
    | some parent =>
      if dirOk then
        (Outcome.reply (replyOk unique sizeOfEntryOut (ReplyBody.entryOut s.slab.length)),
         { s with
             slab := s.slab ++ [⟨parent.path ++ "/" ++ name, 0, true, 0⟩],
             pathMap := assocInsert s.pathMap (parent.path ++ "/" ++ name) s.slab.length })
      else
        (Outcome.reply (replyError unique 2),
         { s with
             slab := s.slab ++ [⟨parent.path ++ "/" ++ name, 0, true, 0⟩],
             pathMap := assocInsert s.pathMap (parent.path ++ "/" ++ name) s.slab.length })

/-- Filesystem::unlink: resolve the parent path, delete on the backend
(delOk) and remove the path map entry; the slab slot is never freed. -/
def unlinkH (s : FsState) (unique hlen nodeid : Nat) (name : String) (delOk : Bool) :
    Outcome × FsState :=
  match usizeSub hlen sizeOfInHeader with
  | none => (Outcome.panic, s)
  | some _ =>
    match slabGet s.slab nodeid with
    | none => (Outcome.reply (replyError unique 2), s)
    | some parent =>
      if !delOk then (Outcome.reply (replyError unique 2), s)
      else
        (Outcome.reply (replyOk unique 0 ReplyBody.empty),
         { s with pathMap := assocRemove s.pathMap (parent.path ++ "/" ++ name) })

/-- Filesystem::rmdir, identical in shape to unlink. -/
def rmdirH (s : FsState) (unique hlen nodeid : Nat) (name : String) (delOk : Bool) :
    Outcome × FsState :=
  match usizeSub hlen sizeOfInHeader with
  | none => (Outcome.panic, s)
  | some _ =>
    match slabGet s.slab nodeid with
    | none => (Outcome.reply (replyError unique 2), s)
    | some parent =>
      if !delOk then (Outcome.reply (replyError unique 2), s)
      else
        (Outcome.reply (replyOk unique 0 ReplyBody.empty),
         { s with pathMap := assocRemove s.pathMap (parent.path ++ "/" ++ name) })

/-- Filesystem::release: drop the writer registry entry for the inode
path if present. -/
def releaseH (s : FsState) (unique nodeid : Nat) : Outcome × FsState :=
  match slabGet s.slab nodeid with
  | none => (Outcome.reply (replyError unique 2), s)
  | some f =>
    (Outcome.reply (replyOk unique 0 ReplyBody.empty),
     { s with writers := assocRemove s.writers f.path })

/-- Filesystem::open: decode OpenIn, resolve the inode path, call
do_set_writer; EVERY do_set_writer failure (including the EACCES raised
by check_flags) is replied as errno 2 (ENOENT). -/
def openH (s : FsState) (unique nodeid flags : Nat) (cap : Capability)
    (writerOk : Bool) (statLen : Option Nat) : Outcome × FsState :=
  match slabGet s.slab nodeid with
  | none => (Outcome.reply (replyError unique 2), s)
  | some f =>
    match do_set_writer s f.path flags cap writerOk statLen with
    | Except.error _ => (Outcome.reply (replyError unique 2), s)
    | Except.ok s1 =>
      (Outcome.reply (replyOk unique sizeOfOpenOut ReplyBody.openOut), s1)

/-- The bytes Reader::read_to_at stages into the BufferWrapper for a
Write request: BufferWrapper::write_vectored_at_volatile concatenates
every slice consume selected (the whole remaining chain when it is
shorter than count); an empty selection leaves the initial empty
Buffer. -/
def stagedData (chain : List (List Nat)) (count : Nat) : List Nat :=
  (selectBufs chain count).flatten

/-- Filesystem::write: decode WriteIn, resolve the inode path, stage
size bytes from the readable chain (fewer when the chain is shorter),
call do_write; every do_write error is replied as errno 5 (EIO); on
success reply WriteOut carrying the REQUESTED size. -/
def writeH (s : FsState) (unique nodeid offset size : Nat) (chain : List (List Nat))
    (writeOk : Bool) : Outcome × FsState :=
  match slabGet s.slab nodeid with
  | none => (Outcome.reply (replyError unique 2), s)
  | some f =>
    match do_write s f.path offset (stagedData chain size) writeOk with
    | Except.error _ => (Outcome.reply (replyError unique 5), s)
    | Except.ok pr =>
      (Outcome.reply (replyOk unique sizeOfWriteOut (ReplyBody.writeOut size)), pr.1)

/-- Filesystem::reply_add_dir_entry repeated over the listing, against
the data writer capacity left after the header split: each entry needs
size_of DirEntryOut plus the name, rounded up to the next multiple of 8
(the source writes (entry_len + 7) & !7); the first entry that does not
fit makes the write_all chain fail, aborting the loop with an error.
Returns the total bytes written and the emitted records. -/
def emitEntries (cap : Nat) : List DirEntry → Except Unit (Nat × List DirEntryOutM)
  | [] => Except.ok (0, [])
  | e :: rest =>
    let entry_len := sizeOfDirEntryOut + e.name.length
    let total_len := (entry_len + 7) / 8 * 8
    if total_len ≤ cap then
      match emitEntries (cap - total_len) rest with
      | Except.ok pr => Except.ok (total_len + pr.1, ⟨e.ino, e.off, e.name.length, e.type_⟩ :: pr.2)
      | Except.error u => Except.error u
    else Except.error ()

/-- Filesystem::readdir: resolve the path, decode ReadIn, split the
response writer after OutHeader (w.split_at(16).unwrap() panics when the
writable chain is shorter), list the backend (listRes; none = error ->
errno 2), allocate inodes for the listing via do_readdir, and then: when
ReadIn.offset is at or past the listing length reply an empty success
header; otherwise emit EVERY entry (ReadIn.size and offset are never
consulted for the emission), replying errno 5 (EIO) if an entry does not
fit in the writable chain.  wTotal is the total writable chain length. -/
def readdirH (s : FsState) (unique nodeid offset size wTotal : Nat)
    (listRes : Option (List BEntry)) : Outcome × FsState :=
  match slabGet s.slab nodeid with
  | none => (Outcome.reply (replyError unique 2), s)
  | some f =>
    match usizeSub wTotal sizeOfOutHeader with
    | none => (Outcome.panic, s)
    | some dataCap =>
      match listRes with
      | none => (Outcome.reply (replyError unique 2), s)
      | some bentries =>
        if (do_readdir s f.path bentries).2.length ≤ offset then
          (Outcome.reply ⟨⟨sizeOfOutHeader, 0, unique⟩, ReplyBody.empty⟩,
           (do_readdir s f.path bentries).1)
        else
          match emitEntries dataCap (do_readdir s f.path bentries).2 with
          | Except.ok er =>
            (Outcome.reply ⟨⟨sizeOfOutHeader + er.1, 0, unique⟩, ReplyBody.dirents er.2⟩,
             (do_readdir s f.path bentries).1)
          | Except.error _ =>
            (Outcome.reply (replyError unique 5), (do_readdir s f.path bentries).1)

/-- A decoded inbound request, pairing the header fields each handler
reads with the outcomes of the backend calls the handler will make.
Handlers that never touch the filesystem maps (destroy, forget, flush,
releasedir, fsyncdir, opendir, read, and the decode-failure paths) are
collected under quiet: for the state-invariant claims only their
leaving the state unchanged matters. -/
inductive Req where
  | init (unique major minor : Nat) : Req
  | lookup (unique hlen nodeid : Nat) (name : String) (statRes : Option StatRes) : Req
  | getattr (unique nodeid : Nat) (statRes : Option StatRes) : Req
  | setattr (unique nodeid : Nat) (statRes : Option StatRes) : Req
  | create (unique hlen nodeid : Nat) (name : String) (flags : Nat) (cap : Capability)
      (writerOk : Bool) (statLen : Option Nat) : Req
  | mkdir (unique hlen nodeid : Nat) (name : String) (dirOk : Bool) : Req
  | unlink (unique hlen nodeid : Nat) (name : String) (delOk : Bool) : Req
  | rmdir (unique hlen nodeid : Nat) (name : String) (delOk : Bool) : Req
  | release (unique nodeid : Nat) : Req
  | openOp (unique nodeid flags : Nat) (cap : Capability) (writerOk : Bool)
      (statLen : Option Nat) : Req
  | write (unique nodeid offset size : Nat) (chain : List (List Nat))
      (writeOk : Bool) : Req
  | readdir (unique nodeid offset size wTotal : Nat)
      (listRes : Option (List BEntry)) : Req
  | quiet (unique : Nat) : Req
  | unknown (unique : Nat) : Req

/-- The unique field of the request header. -/
def reqUnique : Req → Nat
  | Req.init u _ _ => u
  | Req.lookup u _ _ _ _ => u
  | Req.getattr u _ _ => u
  | Req.setattr u _ _ => u
  | Req.create u _ _ _ _ _ _ _ => u
  | Req.mkdir u _ _ _ _ => u
  | Req.unlink u _ _ _ _ => u
  | Req.rmdir u _ _ _ _ => u
  | Req.release u _ => u
  | Req.openOp u _ _ _ _ _ => u
  | Req.write u _ _ _ _ _ => u
  | Req.readdir u _ _ _ _ _ => u
  | Req.quiet u => u
  | Req.unknown u => u

/-- The opcode dispatch of Filesystem::handle_message. -/
def dispatchReq (s : FsState) : Req → Outcome × FsState
  | Req.init unique major minor => initH s unique major minor
  | Req.lookup unique hlen nodeid name statRes => lookupH s unique hlen nodeid name statRes
  | Req.getattr unique nodeid statRes => getattrH s unique nodeid statRes
  | Req.setattr unique nodeid statRes => getattrH s unique nodeid statRes
  | Req.create unique hlen nodeid name flags cap writerOk statLen =>
      createH s unique hlen nodeid name flags cap writerOk statLen
  | Req.mkdir unique hlen nodeid name dirOk => mkdirH s unique hlen nodeid name dirOk
  | Req.unlink unique hlen nodeid name delOk => unlinkH s unique hlen nodeid name delOk
  | Req.rmdir unique hlen nodeid name delOk => rmdirH s unique hlen nodeid name delOk
  | Req.release unique nodeid => releaseH s unique nodeid
  | Req.openOp unique nodeid flags cap writerOk statLen =>
      openH s unique nodeid flags cap writerOk statLen
  | Req.write unique nodeid offset size chain writeOk =>
      writeH s unique nodeid offset size chain writeOk
  | Req.readdir unique nodeid offset size wTotal listRes =>
      readdirH s unique nodeid offset size wTotal listRes
  | Req.quiet unique => (Outcome.reply (replyOk unique 0 ReplyBody.empty), s)
  | Req.unknown unique => (Outcome.reply (replyError unique 38), s)

/-- Filesystem::handle_message: after decoding InHeader, reject a len
above MAX_BUFFER_SIZE + BUFFER_HEADER_SIZE with errno 5 (EIO), then
dispatch on the opcode (an unknown opcode replies errno 38, ENOSYS).
hlen is the decoded InHeader.len. -/
def handle_message (s : FsState) (hlen : Nat) (req : Req) : Outcome × FsState :=
  if MAX_BUFFER_SIZE + BUFFER_HEADER_SIZE < hlen then
    (Outcome.reply (replyError (reqUnique req) 5), s)
  else dispatchReq s req

/-- The filesystem state after one handled request. -/
def stepFs (s : FsState) (hlen : Nat) (req : Req) : FsState :=
  (handle_message s hlen req).2

/-! ## The path-map / slab invariant (claim C2) -/

/-- The forward direction of the claimed map/slab relation: every path
map entry points at a live slab slot holding a record with that path. -/
def pathInv (s : FsState) : Prop :=
  ∀ p k, assocGet s.pathMap p = some k →
    ∃ f, slabGet s.slab k = some f ∧ f.path = p

/-- The biconditional relation exactly as claim C2 states it. -/
def pathMapSlabBiconditional (s : FsState) : Prop :=
  ∀ p k, assocGet s.pathMap p = some k ↔
    ∃ f, slabGet s.slab k = some f ∧ f.path = p

/-- The inductive state invariant: the forward map/slab relation, the
fact that the slab never has exactly one record (init burns slot 0 and
slot 1 together; every other insertion requires a parent lookup to have
succeeded first), and the fact that once the slab holds two records slot
1 is the root directory record with path /. -/
def StateInv (s : FsState) : Prop :=
  pathInv s ∧ s.slab.length ≠ 1
  ∧ (2 ≤ s.slab.length → ∃ f, slabGet s.slab 1 = some f ∧ f.path = "/")

theorem slabGet_lt_length (slab : List OpenedFile) (k : Nat) (f : OpenedFile)
    (h : slabGet slab k = some f) : k < slab.length := by
  unfold slabGet at h
  by_contra hc
  rw [List.getElem?_eq_none (by omega)] at h
  exact Option.noConfusion h

theorem slabGet_some_ne_nil (slab : List OpenedFile) (k : Nat) (f : OpenedFile)
    (h : slabGet slab k = some f) : slab ≠ [] := by
  have := slabGet_lt_length slab k f h
  intro hc
  subst hc
  simp at this

theorem slabGet_append_left (l r : List OpenedFile) (k : Nat) (h : k < l.length) :
    slabGet (l ++ r) k = slabGet l k := by
  unfold slabGet
  exact List.getElem?_append_left h

theorem slabGet_append_self (l : List OpenedFile) (a : OpenedFile) (r : List OpenedFile) :
    slabGet (l ++ a :: r) l.length = some a := by
  unfold slabGet
  rw [List.getElem?_append_right (le_refl l.length)]
  simp

theorem assocGet_insert (m : List (String × Nat)) (p q : String) (v : Nat) :
    assocGet (assocInsert m p v) q = if p = q then some v else assocGet m q := by
  simp [assocInsert, assocGet]

theorem assocRemove_cons (e : String × Nat) (rest : List (String × Nat)) (p : String) :
    assocRemove (e :: rest) p
      = if e.1 = p then assocRemove rest p else e :: assocRemove rest p := by
  by_cases he : e.1 = p <;> simp [assocRemove, List.filter_cons, he]

theorem assocGet_remove_none (m : List (String × Nat)) (p : String) :
    assocGet (assocRemove m p) p = none := by
  induction m with
  | nil => simp [assocRemove, assocGet]
  | cons e rest ih =>
    rw [assocRemove_cons]
    by_cases he : e.1 = p
    · rw [if_pos he]
      exact ih
    · rw [if_neg he]
      rcases e with ⟨e1, e2⟩
      simp only [assocGet]
      rw [if_neg he]
      exact ih

theorem assocGet_remove_some (m : List (String × Nat)) (p q : String) (k : Nat)
    (h : assocGet (assocRemove m p) q = some k) : assocGet m q = some k := by
  induction m with
  | nil => simp [assocRemove, assocGet] at h
  | cons e rest ih =>
    rcases e with ⟨e1, e2⟩
    rw [assocRemove_cons] at h
    by_cases he : e1 = p
    · rw [if_pos he] at h
      have hq : ¬ e1 = q := by
        intro hc
        rw [he] at hc
        subst hc
        rw [assocGet_remove_none rest p] at h
        exact Option.noConfusion h
      simp only [assocGet, if_neg hq]
      exact ih h
    · rw [if_neg he] at h
      by_cases hq : e1 = q
      · simp only [assocGet, if_pos hq] at h ⊢
        exact h
      · simp only [assocGet, if_neg hq] at h ⊢
        exact ih h

theorem StateInv_alloc (s : FsState) (rec : OpenedFile) (p : String)
    (hp : rec.path = p) (hne : s.slab ≠ []) (h : StateInv s) :
    StateInv
      { s with
          slab := s.slab ++ [rec],
          pathMap := assocInsert s.pathMap p s.slab.length } := by
  obtain ⟨hinv, h1, h2⟩ := h
  have hpos : 0 < s.slab.length := List.length_pos.mpr hne
  have hlen2 : 2 ≤ s.slab.length := by omega
  refine ⟨?_, ?_, ?_⟩
  · intro q k hq
    dsimp only at hq ⊢
    rw [assocGet_insert] at hq
    by_cases hpq : p = q
    · rw [if_pos hpq] at hq
      have hk : k = s.slab.length := by
        rw [Option.some.injEq] at hq
        omega
      subst hk
      exact ⟨rec, slabGet_append_self s.slab rec [], hp.trans hpq⟩
    · rw [if_neg hpq] at hq
      obtain ⟨f, hf, hfp⟩ := hinv q k hq
      have hk := slabGet_lt_length _ _ _ hf
      exact ⟨f, by rw [slabGet_append_left _ _ _ hk]; exact hf, hfp⟩
  · dsimp only
    rw [List.length_append]
    simp only [List.length_cons, List.length_nil]
    omega
  · intro _
    dsimp only
    obtain ⟨f, hf, hfp⟩ := h2 hlen2
    have h1lt : 1 < s.slab.length := hlen2
    exact ⟨f, by rw [slabGet_append_left _ _ _ h1lt]; exact hf, hfp⟩

theorem do_get_metadata_inv (s : FsState) (path : String) (st : Option StatRes)
    (hne : s.slab ≠ []) (h : StateInv s) :
    ∀ pr, do_get_metadata s path st = Except.ok pr → StateInv pr.1 := by
  intro pr hok
  unfold do_get_metadata at hok
  rcases st with _ | stv
  · exact Except.noConfusion hok
  · simp only at hok
    rcases hmap : assocGet s.pathMap path with _ | ino
    · rw [hmap] at hok
      simp only [Except.ok.injEq] at hok
      subst hok
      exact StateInv_alloc s ⟨path, 0, stv.isDir, stv.content_length⟩ path rfl hne h
    · rw [hmap] at hok
      simp only [Except.ok.injEq] at hok
      subst hok
      exact h

theorem do_set_writer_inv (s : FsState) (path : String) (flags : Nat)
    (cap : Capability) (writerOk : Bool) (statLen : Option Nat) (h : StateInv s) :
    ∀ s1, do_set_writer s path flags cap writerOk statLen = Except.ok s1 →
      StateInv s1 := by
  intro s1 hok
  unfold do_set_writer at hok
  rcases hcore : do_set_writer_core flags cap writerOk statLen with _ | w
  · rw [hcore] at hok
    exact Except.noConfusion hok
  · rw [hcore] at hok
    rcases w with _ | written
    · simp only [Except.ok.injEq] at hok
      subst hok
      exact h
    · simp only [Except.ok.injEq] at hok
      subst hok
      exact h

theorem readdirAlloc_inv (s : FsState) (epath : String) (isDir : Bool) (size : Nat)
    (hne : s.slab ≠ []) (h : StateInv s) :
    StateInv (readdirAlloc s epath isDir size).1
    ∧ (readdirAlloc s epath isDir size).1.slab ≠ [] := by
  unfold readdirAlloc
  rcases hmap : assocGet s.pathMap epath with _ | ino
  · simp only
    refine ⟨StateInv_alloc s ⟨epath, 0, isDir, size⟩ epath rfl hne h, ?_⟩
    dsimp only
    simp
  · simp only
    exact ⟨h, hne⟩

theorem do_readdirAux_inv :
    ∀ (bs : List BEntry) (s : FsState) (lpath : String) (i : Nat),
      StateInv s → s.slab ≠ [] →
      StateInv (do_readdirAux s lpath i bs).1 := by
  intro bs
  induction bs with
  | nil =>
    intro s lpath i h hne
    simpa [do_readdirAux] using h
  | cons e rest ih =>
    intro s lpath i h hne
    simp only [do_readdirAux]
    obtain ⟨h1, h2⟩ :=
      readdirAlloc_inv s (lpath ++ "/" ++ e.name) e.isDir e.content_length hne h
    exact ih _ lpath (i + 1) h1 h2

theorem initH_inv (s : FsState) (u a b : Nat) (h : StateInv s) :
    StateInv (initH s u a b).2 := by
  unfold initH
  split
  · exact h
  · obtain ⟨hinv, h1, h2⟩ := h
    refine ⟨?_, ?_, ?_⟩
    · intro q k hq
      dsimp only at hq ⊢
      rw [assocGet_insert] at hq
      by_cases hpq : "/" = q
      · rw [if_pos hpq] at hq
        have hk : k = 1 := by
          rw [Option.some.injEq] at hq
          omega
        subst hk
        by_cases hz : s.slab.length = 0
        · have hsnil : s.slab = [] := List.length_eq_zero.mp hz
          rw [hsnil]
          exact ⟨rootFile, rfl, hpq⟩
        · have hge : 2 ≤ s.slab.length := by omega
          obtain ⟨f, hf, hfp⟩ := h2 hge
          have h1lt : 1 < s.slab.length := hge
          exact ⟨f, by rw [slabGet_append_left _ _ _ h1lt]; exact hf, hfp.trans hpq⟩
      · rw [if_neg hpq] at hq
        obtain ⟨f, hf, hfp⟩ := hinv q k hq
        have hk := slabGet_lt_length _ _ _ hf
        exact ⟨f, by rw [slabGet_append_left _ _ _ hk]; exact hf, hfp⟩
    · dsimp only
      rw [List.length_append]
      simp only [List.length_cons, List.length_nil]
      omega
    · intro _
      dsimp only
      by_cases hz : s.slab.length = 0
      · have hsnil : s.slab = [] := List.length_eq_zero.mp hz
        rw [hsnil]
        exact ⟨rootFile, rfl, rfl⟩
      · have hge : 2 ≤ s.slab.length := by omega
        obtain ⟨f, hf, hfp⟩ := h2 hge
        have h1lt : 1 < s.slab.length := hge
        exact ⟨f, by rw [slabGet_append_left _ _ _ h1lt]; exact hf, hfp⟩

theorem StateInv_removePath (s : FsState) (p : String) (h : StateInv s) :
    StateInv { s with pathMap := assocRemove s.pathMap p } := by
  obtain ⟨hinv, h1, h2⟩ := h
  exact ⟨fun q k hq => hinv q k (assocGet_remove_some _ _ _ _ hq), h1, h2⟩

theorem lookupH_inv (s : FsState) (u hlen nodeid : Nat) (name : String)
    (st : Option StatRes) (h : StateInv s) :
    StateInv (lookupH s u hlen nodeid name st).2 := by
  unfold lookupH
  split
  · exact h
  · split
    · exact h
    · next parent hpar =>
      split
      · exact h
      · next pr hmeta =>
        exact do_get_metadata_inv s _ st (slabGet_some_ne_nil _ _ _ hpar) h pr hmeta

theorem getattrH_inv (s : FsState) (u nodeid : Nat) (st : Option StatRes)
    (h : StateInv s) : StateInv (getattrH s u nodeid st).2 := by
  unfold getattrH
  split
  · exact h
  · next f hpar =>
    split
    · exact h
    · next pr hmeta =>
      exact do_get_metadata_inv s _ st (slabGet_some_ne_nil _ _ _ hpar) h pr hmeta

theorem createH_inv (s : FsState) (u hlen nodeid : Nat) (name : String) (flags : Nat)
    (cap : Capability) (writerOk : Bool) (statLen : Option Nat) (h : StateInv s) :
    StateInv (createH s u hlen nodeid name flags cap writerOk statLen).2 := by
  unfold createH
  split
  · exact h
  · split
    · exact h
    · next parent hpar =>
      have hne := slabGet_some_ne_nil _ _ _ hpar
      have halloc :=
        StateInv_alloc s ⟨parent.path ++ "/" ++ name, 0, false, 0⟩
          (parent.path ++ "/" ++ name) rfl hne h
      split
      · exact halloc
      · next s2 hw =>
        exact do_set_writer_inv _ _ _ _ _ _ halloc s2 hw

theorem mkdirH_inv (s : FsState) (u hlen nodeid : Nat) (name : String) (dirOk : Bool)
    (h : StateInv s) : StateInv (mkdirH s u hlen nodeid name dirOk).2 := by
  unfold mkdirH
  rcases husz : usizeSub hlen (sizeOfInHeader + sizeOfMkdirIn) with _ | n
  · exact h
  · rcases hpar : slabGet s.slab nodeid with _ | parent
    · exact h
    · have hne := slabGet_some_ne_nil _ _ _ hpar
      have halloc :=
        StateInv_alloc s ⟨parent.path ++ "/" ++ name, 0, true, 0⟩
          (parent.path ++ "/" ++ name) rfl hne h
      by_cases hd : dirOk
      · simp only [hd, if_true]
        exact halloc
      · simp only [hd, if_false]
        exact halloc

theorem unlinkH_inv (s : FsState) (u hlen nodeid : Nat) (name : String) (delOk : Bool)
    (h : StateInv s) : StateInv (unlinkH s u hlen nodeid name delOk).2 := by
  unfold unlinkH
  rcases husz : usizeSub hlen sizeOfInHeader with _ | n
  · exact h
  · rcases hpar : slabGet s.slab nodeid with _ | parent
    · exact h
    · by_cases hd : (!delOk : Bool)
      · simp only [hd, if_true]
        exact h
      · simp only [hd, if_false]
        exact StateInv_removePath s _ h

theorem rmdirH_inv (s : FsState) (u hlen nodeid : Nat) (name : String) (delOk : Bool)
    (h : StateInv s) : StateInv (rmdirH s u hlen nodeid name delOk).2 := by
  unfold rmdirH
  rcases husz : usizeSub hlen sizeOfInHeader with _ | n
  · exact h
  · rcases hpar : slabGet s.slab nodeid with _ | parent
    · exact h
    · by_cases hd : (!delOk : Bool)
      · simp only [hd, if_true]
        exact h
      · simp only [hd, if_false]
        exact StateInv_removePath s _ h

theorem releaseH_inv (s : FsState) (u nodeid : Nat) (h : StateInv s) :
    StateInv (releaseH s u nodeid).2 := by
  unfold releaseH
  rcases hpar : slabGet s.slab nodeid with _ | f
  · exact h
  · exact h

theorem openH_inv (s : FsState) (u nodeid flags : Nat) (cap : Capability)
    (writerOk : Bool) (statLen : Option Nat) (h : StateInv s) :
    StateInv (openH s u nodeid flags cap writerOk statLen).2 := by
  unfold openH
  split
  · exact h
  · next f hpar =>
    split
    · exact h
    · next s1 hw =>
      exact do_set_writer_inv _ _ _ _ _ _ h s1 hw

theorem do_write_inv (s : FsState) (path : String) (offset : Nat) (data : List Nat)
    (writeOk : Bool) (h : StateInv s) :
    ∀ pr, do_write s path offset data writeOk = Except.ok pr → StateInv pr.1 := by
  intro pr hok
  unfold do_write at hok
  split at hok
  · exact Except.noConfusion hok
  · split at hok
    · exact Except.noConfusion hok
    · split at hok
      · exact Except.noConfusion hok
      · simp only [Except.ok.injEq] at hok
        subst hok
        exact h

theorem writeH_inv (s : FsState) (u nodeid offset size : Nat)
    (chain : List (List Nat)) (writeOk : Bool) (h : StateInv s) :
    StateInv (writeH s u nodeid offset size chain writeOk).2 := by
  unfold writeH
  split
  · exact h
  · next f hpar =>
    split
    · exact h
    · next pr hw =>
      exact do_write_inv s f.path offset (stagedData chain size) writeOk h pr hw

theorem readdirH_inv (s : FsState) (u nodeid offset size wTotal : Nat)
    (listRes : Option (List BEntry)) (h : StateInv s) :
    StateInv (readdirH s u nodeid offset size wTotal listRes).2 := by
  unfold readdirH
  rcases hpar : slabGet s.slab nodeid with _ | f
  · exact h
  · rcases husz : usizeSub wTotal sizeOfOutHeader with _ | dataCap
    · exact h
    · rcases listRes with _ | bentries
      · exact h
      · have hmain : StateInv (do_readdir s f.path bentries).1 :=
          do_readdirAux_inv bentries s (ensureSlash f.path) 0 h
            (slabGet_some_ne_nil _ _ _ hpar)
        by_cases hoff : (do_readdir s f.path bentries).2.length ≤ offset
        · simp only [hoff, if_true]
          exact hmain
        · simp only [hoff, if_false]
          rcases hemit : emitEntries dataCap (do_readdir s f.path bentries).2 with e | er
        
          · exact hmain
          · exact hmain

/-- The state invariant is preserved by every handled request. -/
theorem stepFs_inv (s : FsState) (hlen : Nat) (req : Req) (h : StateInv s) :
    StateInv (stepFs s hlen req) := by
  unfold stepFs handle_message
  by_cases hcap : MAX_BUFFER_SIZE + BUFFER_HEADER_SIZE < hlen
  · simp only [if_pos hcap]
    exact h
  · simp only [if_neg hcap]
    cases req with
    | init u a b => exact initH_inv s u a b h
    | lookup u hl nodeid name st => exact lookupH_inv s u hl nodeid name st h
    | getattr u nodeid st => exact getattrH_inv s u nodeid st h
    | setattr u nodeid st => exact getattrH_inv s u nodeid st h
    | create u hl nodeid name flags cap wOk stl =>
        exact createH_inv s u hl nodeid name flags cap wOk stl h
    | mkdir u hl nodeid name dirOk => exact mkdirH_inv s u hl nodeid name dirOk h
    | unlink u hl nodeid name delOk => exact unlinkH_inv s u hl nodeid name delOk h
    | rmdir u hl nodeid name delOk => exact rmdirH_inv s u hl nodeid name delOk h
    | release u nodeid => exact releaseH_inv s u nodeid h
    | openOp u nodeid flags cap wOk stl => exact openH_inv s u nodeid flags cap wOk stl h
    | write u nodeid offset size chain wOk =>
        exact writeH_inv s u nodeid offset size chain wOk h
    | readdir u nodeid offset size wTotal listRes =>
        exact readdirH_inv s u nodeid offset size wTotal listRes h
    | quiet u => exact h
    | unknown u => exact h

/-- Counterexample to claim C2 as stated: after Init on the fresh
filesystem the biconditional between the path map and the slab fails,
because init inserts the root record twice, so slot 0 also holds a
record with path / while the map sends / to slot 1; the root does not
occupy exactly slot 1. -/
theorem double_insert_biconditional_counterexample :
    slabGet (stepFs emptyFs 56 (Req.init 1 7 31)).slab 0 = some rootFile
    ∧ rootFile.path = "/"
    ∧ assocGet (stepFs emptyFs 56 (Req.init 1 7 31)).pathMap "/" = some 1
    ∧ ¬ pathMapSlabBiconditional (stepFs emptyFs 56 (Req.init 1 7 31)) := by
  refine ⟨by decide, by decide, by decide, ?_⟩
  intro hbi
  have h0 := (hbi "/" 0).mpr ⟨rootFile, by decide, by decide⟩
  have h1 : assocGet (stepFs emptyFs 56 (Req.init 1 7 31)).pathMap "/" = some 1 := by
    decide
  rw [h0] at h1
  exact absurd h1 (by decide)

/-- Claim C2 amended: only the forward direction of the biconditional
holds (every path map entry points at a live slab slot whose record
carries that path), it is preserved by every handled request, and after
Init the root path / maps to inode 1 whose slot holds the root record
with path /; the backward direction fails because Init also burns slot 0
with a copy of the root record (see the counterexample). -/
theorem path_map_forward_invariant :
    StateInv emptyFs
    ∧ (∀ s hlen req, StateInv s → StateInv (stepFs s hlen req))
    ∧ (∀ u, slabGet (stepFs emptyFs 56 (Req.init u 7 31)).slab 1 = some rootFile
        ∧ assocGet (stepFs emptyFs 56 (Req.init u 7 31)).pathMap "/" = some 1) := by
  refine ⟨?_, ?_, ?_⟩
  · refine ⟨?_, by decide, ?_⟩
    · intro p k hq
      simp [emptyFs, assocGet] at hq
    · intro hc
      exact absurd hc (by decide)
  · intro s hlen req h
    exact stepFs_inv s hlen req h
  · intro u
    exact ⟨rfl, rfl⟩

/-- Witness for the amended C2 invariant at the concrete Init request. -/
theorem path_map_forward_invariant_witness :
    StateInv emptyFs ∧ StateInv (stepFs emptyFs 56 (Req.init 1 7 31)) :=
  ⟨path_map_forward_invariant.1,
   path_map_forward_invariant.2.1 emptyFs 56 (Req.init 1 7 31)
     path_map_forward_invariant.1⟩

/-- Claim C5: Init rejects major not equal to 7 or minor below 27 with a
bare 16-byte error header carrying errno 5 (EIO, negated on the wire),
and otherwise replies a success header followed by InitOut with major 7,
minor 38 and max_write 1048576. -/
theorem init_version_negotiation (s : FsState) (unique major minor : Nat) :
    ((major ≠ KERNEL_VERSION ∨ minor < MIN_KERNEL_MINOR_VERSION) →
      (initH s unique major minor).1 = Outcome.reply (replyError unique 5))
    ∧ (major = KERNEL_VERSION → MIN_KERNEL_MINOR_VERSION ≤ minor →
      (initH s unique major minor).1
        = Outcome.reply (replyOk unique sizeOfInitOut (ReplyBody.initOut 7 38 1048576)))
    ∧ replyError unique 5 = ⟨⟨16, -5, unique⟩, ReplyBody.empty⟩ := by
  refine ⟨?_, ?_, rfl⟩
  · intro hbad
    unfold initH
    split
    · rfl
    · next hg =>
      exfalso
      simp only [Bool.or_eq_true, bne_iff_ne, decide_eq_true_eq, not_or] at hg
      rcases hbad with hb | hb
      · exact hg.1 hb
      · exact hg.2 hb
  · intro h7 hmin
    unfold initH
    split
    · next hg =>
      exfalso
      simp only [Bool.or_eq_true, bne_iff_ne, decide_eq_true_eq] at hg
      rcases hg with hb | hb
      · exact hb h7
      · omega
    · rfl

/-- Witness for C5 at minor 20 (rejected) and minor 31 (accepted). -/
theorem init_version_negotiation_witness :
    ((7 : Nat) ≠ KERNEL_VERSION ∨ (20 : Nat) < MIN_KERNEL_MINOR_VERSION)
    ∧ (initH emptyFs 1 7 20).1 = Outcome.reply (replyError 1 5)
    ∧ (initH emptyFs 1 7 31).1
      = Outcome.reply (replyOk 1 sizeOfInitOut (ReplyBody.initOut 7 38 1048576)) :=
  ⟨Or.inr (by decide),
   (init_version_negotiation emptyFs 1 7 20).1 (Or.inr (by decide)),
   (init_version_negotiation emptyFs 1 7 31).2.1 (by decide) (by decide)⟩

/-- Claim C3 assessment (a code bug): the dispatcher CAN panic on bad
input.  A Lookup message whose InHeader.len is 39 (any value below the
40-byte InHeader size) passes the size-cap check and then underflows the
usize subtraction in_header.len - size_of InHeader; and a Readdir request
whose writable descriptor chain is shorter than the 16-byte OutHeader
makes w.split_at(16).unwrap() panic. -/
theorem dispatcher_panics_on_bad_input :
    (handle_message emptyFs 39 (Req.lookup 1 39 1 "" none)).1 = Outcome.panic
    ∧ (handle_message (stepFs emptyFs 56 (Req.init 1 7 31)) 80
        (Req.readdir 2 1 0 4096 8 (some []))).1 = Outcome.panic := by
  exact ⟨by decide, by decide⟩

/-- Counterexample to claim C4 as stated: with a backend lacking the
write capability, an Open carrying O_TRUNC makes check_flags raise errno
13 (EACCES), but the reply the guest sees carries errno 2 (ENOENT), not
13: the open handler maps every do_set_writer failure to ENOENT. -/
theorem open_eacces_counterexample :
    check_flags ⟨false, false⟩ O_TRUNC = Except.error 13
    ∧ (openH (stepFs emptyFs 56 (Req.init 1 7 31)) 2 1 O_TRUNC ⟨false, false⟩
        true none).1 = Outcome.reply (replyError 2 2)
    ∧ (replyError 2 2).header.error = -2
    ∧ ¬ ((replyError 2 2).header.error = -13) := by
  exact ⟨rfl, by decide, by decide, by decide⟩

theorem do_set_writer_error_any (s : FsState) (path : String) (flags : Nat)
    (cap : Capability) (writerOk : Bool) (statLen : Option Nat) (e : Nat)
    (hw : do_set_writer_core flags cap writerOk statLen = Except.error e) :
    do_set_writer s path flags cap writerOk statLen = Except.error e := by
  unfold do_set_writer
  rw [hw]

/-- Claim C4 amended: when check_flags fails (it raises EACCES both for
truncate/create without the write capability and for append without the
append capability), the open handler replies an error header carrying
errno 2 (ENOENT), not EACCES. -/
theorem open_missing_capability_enoent (s : FsState) (unique nodeid flags : Nat)
    (cap : Capability) (f : OpenedFile) (writerOk : Bool) (statLen : Option Nat)
    (e : Nat) (hf : slabGet s.slab nodeid = some f)
    (hcf : check_flags cap flags = Except.error e) :
    (openH s unique nodeid flags cap writerOk statLen).1
      = Outcome.reply (replyError unique 2)
    ∧ (∀ (cap2 : Capability) (flags2 : Nat),
        (flags2 &&& O_TRUNC ≠ 0 ∨ flags2 &&& O_CREAT ≠ 0) → cap2.write = false →
        check_flags cap2 flags2 = Except.error 13)
    ∧ (∀ (cap2 : Capability) (flags2 : Nat),
        cap2.write = true → cap2.write_can_append = false → flags2 &&& O_APPEND ≠ 0 →
        check_flags cap2 flags2 = Except.error 13) := by
  refine ⟨?_, ?_, ?_⟩
  · have hds : do_set_writer s f.path flags cap writerOk statLen = Except.error e := by
      unfold do_set_writer do_set_writer_core
      rw [hcf]
    unfold openH
    simp only [hf, hds]
  · intro cap2 flags2 ht hwr
    unfold check_flags
    have h1 : (flags2 &&& O_TRUNC != 0 || flags2 &&& O_CREAT != 0) = true := by
      rcases ht with hh | hh <;> simp [bne_iff_ne, hh]
    simp [h1, hwr]
  · intro cap2 flags2 hwr hwa ha
    unfold check_flags
    have h1 : (flags2 &&& O_APPEND != 0) = true := by
      simp [bne_iff_ne, ha]
    simp [h1, hwr, hwa]

/-- Witness for the amended C4 at a concrete state and flags. -/
theorem open_missing_capability_enoent_witness :
    slabGet (stepFs emptyFs 56 (Req.init 1 7 31)).slab 1 = some rootFile
    ∧ check_flags ⟨false, false⟩ O_TRUNC = Except.error 13
    ∧ (openH (stepFs emptyFs 56 (Req.init 1 7 31)) 2 1 O_TRUNC ⟨false, false⟩
        true none).1 = Outcome.reply (replyError 2 2) :=
  ⟨by decide, rfl,
   (open_missing_capability_enoent (stepFs emptyFs 56 (Req.init 1 7 31)) 2 1 O_TRUNC
     ⟨false, false⟩ rootFile true none 13 (by decide) rfl).1⟩

theorem do_write_ok_eq (s : FsState) (path : String) (offset : Nat) (data : List Nat)
    (cur : Nat) (hw : assocGet s.writers path = some cur) (hoc : offset = cur) :
    do_write s path offset data true
      = Except.ok
          ({ s with writers := assocInsert s.writers path (cur + data.length) },
           data.length) := by
  unfold do_write
  rw [hw]
  simp [hoc]

theorem do_write_mismatch_eq (s : FsState) (path : String) (offset : Nat)
    (data : List Nat) (writeOk : Bool) (cur : Nat)
    (hw : assocGet s.writers path = some cur) (hoc : offset ≠ cur) :
    do_write s path offset data writeOk = Except.error 5 := by
  unfold do_write
  rw [hw]
  simp [bne_iff_ne, hoc]

/-- Claim C1: for a Write on a path with a registered open writer (and a
backend write that succeeds), the request is accepted exactly when
WriteIn.offset equals the writer cursor; on acceptance the cursor
advances by exactly the length of the staged data; on a mismatch the
reply is an error header with errno 5 (EIO) and the state, cursor
included, is unchanged. -/
theorem write_cursor_discipline (s : FsState) (unique nodeid offset size : Nat)
    (chain : List (List Nat)) (f : OpenedFile) (cur : Nat)
    (hf : slabGet s.slab nodeid = some f)
    (hw : assocGet s.writers f.path = some cur) :
    ((writeH s unique nodeid offset size chain true).1
        = Outcome.reply (replyOk unique sizeOfWriteOut (ReplyBody.writeOut size))
      ↔ offset = cur)
    ∧ (offset = cur →
        assocGet (writeH s unique nodeid offset size chain true).2.writers f.path
          = some (cur + (stagedData chain size).length))
    ∧ (offset ≠ cur →
        (writeH s unique nodeid offset size chain true).1
          = Outcome.reply (replyError unique 5)
        ∧ (writeH s unique nodeid offset size chain true).2 = s) := by
  by_cases hoc : offset = cur
  · have hdw := do_write_ok_eq s f.path offset (stagedData chain size) cur hw hoc
    refine ⟨?_, ?_, ?_⟩
    · constructor
      · intro _
        exact hoc
      · intro _
        unfold writeH
        simp only [hf, hdw]
    · intro _
      unfold writeH
      simp only [hf, hdw]
      simp [assocGet_insert]
    · intro hne
      exact absurd hoc hne
  · have hdw := do_write_mismatch_eq s f.path offset (stagedData chain size) true cur
      hw hoc
    refine ⟨?_, ?_, ?_⟩
    · constructor
      · intro hcontra
        unfold writeH at hcontra
        simp only [hf, hdw] at hcontra
        simp [replyError, replyOk] at hcontra
      · intro hh
        exact absurd hh hoc
    · intro hh
      exact absurd hh hoc
    · intro _
      unfold writeH
      simp only [hf, hdw]
      constructor <;> trivial

/-- Witness for C1 on a concrete state with a registered writer. -/
theorem write_cursor_discipline_witness :
    slabGet [rootFile, rootFile] 1 = some rootFile
    ∧ assocGet [("/", 0)] rootFile.path = some 0
    ∧ ((writeH ⟨[rootFile, rootFile], [("/", 1)], [("/", 0)]⟩ 3 1 0 3 [[7, 8, 9]]
          true).1
        = Outcome.reply (replyOk 3 sizeOfWriteOut (ReplyBody.writeOut 3))
      ↔ (0 : Nat) = 0) :=
  ⟨by decide, by decide,
   (write_cursor_discipline ⟨[rootFile, rootFile], [("/", 1)], [("/", 0)]⟩ 3 1 0 3
     [[7, 8, 9]] rootFile 0 (by decide) (by decide)).1⟩

theorem selectBufsAux_all :
    ∀ (bufs : List (List Nat)) (len count : Nat), len + totalLen bufs < count →
      selectBufsAux count bufs len = bufs := by
  intro bufs
  induction bufs with
  | nil =>
    intro len count h
    simp [selectBufsAux]
  | cons vs rest ih =>
    intro len count h
    rw [totalLen_cons] at h
    have hlt : ¬ count ≤ len := by omega
    simp only [selectBufsAux, if_neg hlt]
    congr 1
    have hmin : min (count - len) vs.length = vs.length := by omega
    rw [hmin]
    exact ih _ _ (by omega)

theorem stagedData_short (chain : List (List Nat)) (count : Nat)
    (h : totalLen chain < count) :
    (stagedData chain count).length = totalLen chain := by
  unfold stagedData selectBufs
  rw [selectBufsAux_all chain 0 count (by omega)]
  rw [List.length_flatten]
  rfl

/-- Claim C10: a Write whose readable chain carries fewer payload bytes
than WriteIn.size, with the cursor check passing, still replies success
with WriteOut.size equal to the REQUESTED size, while the cursor
advances only by the number of bytes actually staged (the whole chain
content). -/
theorem write_short_payload (s : FsState) (unique nodeid offset size : Nat)
    (chain : List (List Nat)) (f : OpenedFile) (cur : Nat)
    (hf : slabGet s.slab nodeid = some f)
    (hw : assocGet s.writers f.path = some cur)
    (hoc : offset = cur)
    (hshort : totalLen chain < size) :
    (writeH s unique nodeid offset size chain true).1
      = Outcome.reply (replyOk unique sizeOfWriteOut (ReplyBody.writeOut size))
    ∧ (stagedData chain size).length = totalLen chain
    ∧ assocGet (writeH s unique nodeid offset size chain true).2.writers f.path
      = some (cur + totalLen chain) := by
  have hdw := do_write_ok_eq s f.path offset (stagedData chain size) cur hw hoc
  have hlen := stagedData_short chain size hshort
  refine ⟨?_, hlen, ?_⟩
  · unfold writeH
    simp only [hf, hdw]
  · unfold writeH
    simp only [hf, hdw]
    rw [← hlen]
    simp [assocGet_insert]

/-- Witness for C10: a 2-byte chain against a requested size of 5. -/
theorem write_short_payload_witness :
    totalLen [[7, 8]] < 5
    ∧ (writeH ⟨[rootFile, rootFile], [("/", 1)], [("/", 0)]⟩ 3 1 0 5 [[7, 8]]
        true).1
      = Outcome.reply (replyOk 3 sizeOfWriteOut (ReplyBody.writeOut 5)) :=
  ⟨by decide,
   (write_short_payload ⟨[rootFile, rootFile], [("/", 1)], [("/", 0)]⟩ 3 1 0 5 [[7, 8]]
     rootFile 0 (by decide) (by decide) (by decide) (by decide)).1⟩

/-- Claim C9: when a Create or Mkdir reaches its backend call and the
call fails, the handler replies an error header (errno 2), but the slab
record allocated for the new path and the corresponding path-map entry
remain in the state: the in-memory allocation happens before the backend
call and is not rolled back. -/
theorem create_mkdir_keep_alloc_on_backend_error (s : FsState)
    (u1 u2 len1 len2 nodeid : Nat) (name : String) (flags : Nat) (cap : Capability)
    (writerOk : Bool) (statLen : Option Nat) (parent : OpenedFile) (e : Nat)
    (hp : slabGet s.slab nodeid = some parent)
    (hl1 : 56 ≤ len1) (hl2 : 48 ≤ len2)
    (hwc : do_set_writer_core flags cap writerOk statLen = Except.error e) :
    ((createH s u1 len1 nodeid name flags cap writerOk statLen).1
        = Outcome.reply (replyError u1 2)
      ∧ (createH s u1 len1 nodeid name flags cap writerOk statLen).2.slab
        = s.slab ++ [⟨parent.path ++ "/" ++ name, 0, false, 0⟩]
      ∧ assocGet (createH s u1 len1 nodeid name flags cap writerOk statLen).2.pathMap
          (parent.path ++ "/" ++ name) = some s.slab.length)
    ∧ ((mkdirH s u2 len2 nodeid name false).1 = Outcome.reply (replyError u2 2)
      ∧ (mkdirH s u2 len2 nodeid name false).2.slab
        = s.slab ++ [⟨parent.path ++ "/" ++ name, 0, true, 0⟩]
      ∧ assocGet (mkdirH s u2 len2 nodeid name false).2.pathMap
          (parent.path ++ "/" ++ name) = some s.slab.length) := by
  constructor
  · have husz : usizeSub len1 (sizeOfInHeader + sizeOfCreateIn)
        = some (len1 - (sizeOfInHeader + sizeOfCreateIn)) := by
      unfold usizeSub sizeOfInHeader sizeOfCreateIn
      rw [if_pos (by omega)]
    have hds := do_set_writer_error_any
      { s with
          slab := s.slab ++ [⟨parent.path ++ "/" ++ name, 0, false, 0⟩],
          pathMap := assocInsert s.pathMap (parent.path ++ "/" ++ name) s.slab.length }
      (parent.path ++ "/" ++ name) flags cap writerOk statLen e hwc
    unfold createH
    simp only [husz, hp, hds]
    refine ⟨trivial, trivial, ?_⟩
    simp [assocGet_insert]
  · have husz : usizeSub len2 (sizeOfInHeader + sizeOfMkdirIn)
        = some (len2 - (sizeOfInHeader + sizeOfMkdirIn)) := by
      unfold usizeSub sizeOfInHeader sizeOfMkdirIn
      rw [if_pos (by omega)]
    unfold mkdirH
    simp only [husz, hp, Bool.false_eq_true, if_false]
    refine ⟨trivial, trivial, ?_⟩
    simp [assocGet_insert]

/-- Witness for C9: create of b under the root with the backend writer
failing, and mkdir of d with the backend create_dir failing. -/
theorem create_mkdir_keep_alloc_witness :
    slabGet (stepFs emptyFs 56 (Req.init 1 7 31)).slab 1 = some rootFile
    ∧ do_set_writer_core 65 ⟨true, true⟩ false none = Except.error 5
    ∧ (createH (stepFs emptyFs 56 (Req.init 1 7 31)) 2 62 1 "b" 65 ⟨true, true⟩
        false none).1 = Outcome.reply (replyError 2 2)
    ∧ assocGet (createH (stepFs emptyFs 56 (Req.init 1 7 31)) 2 62 1 "b" 65
        ⟨true, true⟩ false none).2.pathMap (rootFile.path ++ "/" ++ "b") = some 2 :=
  ⟨by decide, rfl,
   ((create_mkdir_keep_alloc_on_backend_error (stepFs emptyFs 56 (Req.init 1 7 31))
      2 3 62 50 1 "b" 65 ⟨true, true⟩ false none rootFile 5 (by decide) (by decide)
      (by decide) rfl).1).1,
   by
    have h := ((create_mkdir_keep_alloc_on_backend_error
      (stepFs emptyFs 56 (Req.init 1 7 31)) 2 3 62 50 1 "b" 65 ⟨true, true⟩ false none
      rootFile 5 (by decide) (by decide) (by decide) rfl).1).2.2
    simpa using h⟩

theorem do_readdirAux_length :
    ∀ (bs : List BEntry) (s : FsState) (lpath : String) (i : Nat),
      (do_readdirAux s lpath i bs).2.length = bs.length := by
  intro bs
  induction bs with
  | nil =>
    intro s lpath i
    simp [do_readdirAux]
  | cons e rest ih =>
    intro s lpath i
    simp only [do_readdirAux, List.length_cons]
    rw [ih]

theorem do_readdirAux_offs :
    ∀ (bs : List BEntry) (s : FsState) (lpath : String) (i : Nat),
      (do_readdirAux s lpath i bs).2.map DirEntry.off = List.range' (i + 1) bs.length := by
  intro bs
  induction bs with
  | nil =>
    intro s lpath i
    simp [do_readdirAux, List.range']
  | cons e rest ih =>
    intro s lpath i
    simp only [do_readdirAux, List.length_cons, List.map_cons, List.range'_succ]
    rw [ih]

/-- Counterexample to claim C6 as stated: a successful Readdir reply
whose emitted stream (one 32-byte entry) exceeds the request's
ReadIn.size of 0.  The handler never consults ReadIn.size when emitting
entries. -/
theorem readdir_size_budget_counterexample :
    (readdirH (stepFs emptyFs 56 (Req.init 1 7 31)) 2 1 0 0 4096
        (some [⟨"x", false, 0⟩])).1
      = Outcome.reply ⟨⟨48, 0, 2⟩, ReplyBody.dirents [⟨2, 1, 1, 8⟩]⟩
    ∧ ¬ ((48 : Nat) - sizeOfOutHeader ≤ 0) := by
  exact ⟨by decide, by decide⟩

/-- Claim C6 amended: Readdir does not bound its reply by ReadIn.size
(the field is read but never consulted, so the outcome is identical for
every size value); when ReadIn.offset is below the listing length the
handler attempts to emit EVERY listed entry into the writable chain:
when they all fit the reply carries them all, and when one does not fit
the handler replies an EIO error header rather than omitting the entry.
Each emitted record's off field is the 1-based index of the entry within
the listing. -/
theorem readdir_ignores_size (s : FsState) (unique nodeid offset size wTotal : Nat)
    (bentries : List BEntry) (f : OpenedFile)
    (hf : slabGet s.slab nodeid = some f)
    (hw : sizeOfOutHeader ≤ wTotal)
    (hoff : offset < bentries.length) :
    ((do_readdir s f.path bentries).2.map DirEntry.off = List.range' 1 bentries.length)
    ∧ (∀ total outs,
        emitEntries (wTotal - sizeOfOutHeader) (do_readdir s f.path bentries).2
          = Except.ok (total, outs) →
        (readdirH s unique nodeid offset size wTotal (some bentries)).1
          = Outcome.reply ⟨⟨sizeOfOutHeader + total, 0, unique⟩, ReplyBody.dirents outs⟩)
    ∧ (emitEntries (wTotal - sizeOfOutHeader) (do_readdir s f.path bentries).2
          = Except.error () →
        (readdirH s unique nodeid offset size wTotal (some bentries)).1
          = Outcome.reply (replyError unique 5))
    ∧ (∀ size2, readdirH s unique nodeid offset size wTotal (some bentries)
        = readdirH s unique nodeid offset size2 wTotal (some bentries)) := by
  have husz : usizeSub wTotal sizeOfOutHeader = some (wTotal - sizeOfOutHeader) := by
    unfold usizeSub
    rw [if_pos hw]
  have hlen : ¬ ((do_readdir s f.path bentries).2.length ≤ offset) := by
    unfold do_readdir
    rw [do_readdirAux_length]
    omega
  refine ⟨?_, ?_, ?_, ?_⟩
  · unfold do_readdir
    rw [do_readdirAux_offs]
  · intro total outs hem
    unfold readdirH
    simp only [hf, husz, hlen, if_false, hem]
  · intro hem
    unfold readdirH
    simp only [hf, husz, hlen, if_false, hem]
  · intro size2
    rfl

/-- Witness for the amended C6 at the concrete one-entry listing used in
the counterexample. -/
theorem readdir_ignores_size_witness :
    slabGet (stepFs emptyFs 56 (Req.init 1 7 31)).slab 1 = some rootFile
    ∧ (0 : Nat) < ([⟨"x", false, 0⟩] : List BEntry).length
    ∧ (do_readdir (stepFs emptyFs 56 (Req.init 1 7 31)) rootFile.path
        [⟨"x", false, 0⟩]).2.map DirEntry.off = List.range' 1 1 :=
  ⟨by decide, by decide,
   (readdir_ignores_size (stepFs emptyFs 56 (Req.init 1 7 31)) 2 1 0 0 4096
     [⟨"x", false, 0⟩] rootFile (by decide) (by decide) (by decide)).1⟩
